import Mathlib

/-!
Verification of the ReactoChem reactor-simulation library
(`src/reactochem/reactions.py`, `src/reactochem/reactors.py`) against its
natural-language specification.

The embedding works over exact rationals (`ℚ`).  Floating-point NaN
(which arises in the source through `np.nan` and division by a zero
volume) is modelled by the two-valued type `Val`: either a finite
rational or `nan`.  IEEE infinities are collapsed into `nan` as well;
the only places they could arise (division of a nonzero quantity by a
zero volume) behave the same as `nan` under every comparison the source
performs (`abs < threshold`, `≤`, `>` are all false on non-finite
values).

Symbolic sympy rate-law expressions are modelled by the small AST
`Expr`.  Rate-law *parsing* (`sympy.sympify`) is an external
collaborator per §1 of the spec, so `Reaction.init` receives the parsed
expression directly.  `sympy`'s `.subs` is modelled by `Expr.subs`,
which replaces exactly the bound symbols and leaves the others in
place.

The scipy ODE integrator is an external collaborator per §1 of the
spec; `Reactor.run` is therefore parametric in a `Solver`, a black box
that receives the right-hand side, the span and the initial state and
returns the sampled trajectory (a list of `(coordinate, state)` pairs —
scipy guarantees that `results.t` and `results.y` are aligned).
-/

deriving instance DecidableEq for Except

/-- Model of a (parsed) sympy expression as used by the rate laws of the
repository: rational constants, species symbols, `+`, `*` and natural
powers (`**`). -/
inductive Expr where
  | const : ℚ → Expr
  | var : String → Expr
  | add : Expr → Expr → Expr
  | mul : Expr → Expr → Expr
  | pow : Expr → ℕ → Expr
deriving DecidableEq

/-- Free symbols of an expression (`sympy`'s `free_symbols`, as a list;
only membership is ever used). -/
def Expr.freeSymbols : Expr → List String
  | .const _ => []
  | .var s => [s]
  | .add a b => a.freeSymbols ++ b.freeSymbols
  | .mul a b => a.freeSymbols ++ b.freeSymbols
  | .pow a _ => a.freeSymbols

/-- `sympy`'s `.subs`: every symbol bound in the mapping is replaced by
its (numeric) value, unbound symbols stay in place, so the result can be
a partially evaluated symbolic expression. -/
def Expr.subs : Expr → List (String × ℚ) → Expr
  | .const q, _ => .const q
  | .var s, env =>
    match env.lookup s with
    | some q => .const q
    | none => .var s
  | .add a b, env => .add (a.subs env) (b.subs env)
  | .mul a b, env => .mul (a.subs env) (b.subs env)
  | .pow a n, env => .pow (a.subs env) n

/-- A numpy/sympy numeric value: a finite rational or `nan`.  IEEE
infinities are collapsed into `nan`; see the header comment. -/
inductive Val where
  | fin : ℚ → Val
  | nan : Val
deriving DecidableEq

namespace Val

def add : Val → Val → Val
  | fin a, fin b => fin (a + b)
  | _, _ => nan

def sub : Val → Val → Val
  | fin a, fin b => fin (a - b)
  | _, _ => nan

def mul : Val → Val → Val
  | fin a, fin b => fin (a * b)
  | _, _ => nan

/-- Division; a zero denominator yields a non-finite float in numpy
(`inf` or `nan`), both collapsed to `nan` here. -/
def div : Val → Val → Val
  | fin a, fin b => if b = 0 then nan else fin (a / b)
  | _, _ => nan

/-- `v ** n`.  Both IEEE `pow` and sympy simplify `nan ** 0` to `1`. -/
def pow : Val → ℕ → Val
  | _, 0 => fin 1
  | fin a, n + 1 => fin (a ^ (n + 1))
  | nan, _ + 1 => nan

/-- `v < w` as evaluated by numpy: comparisons with a non-finite value
are false (`nan < x`, `inf < threshold`, … are all false). -/
def ltb : Val → Val → Bool
  | fin a, fin b => decide (a < b)
  | _, _ => false

/-- `v ≤ w` as evaluated by numpy: false on non-finite values. -/
def leb : Val → Val → Bool
  | fin a, fin b => decide (a ≤ b)
  | _, _ => false

/-- `np.abs v < t`, false when `v` is non-finite. -/
def absLt (v : Val) (t : ℚ) : Bool :=
  match v with
  | fin a => decide (|a| < t)
  | nan => false

end Val

/-- Numeric evaluation of a substituted expression, as performed by the
numpy pipeline of `reactors.py` when a rate-law value enters an array.
A symbol that is missing from the environment would leak a symbolic
object into the numeric arrays in the source (ending in a `TypeError`
inside the solver); for every reactor produced by `Reactor.init` this
cannot happen (rate-law symbols are validated against the species in
`Reaction.init`, and the species are validated against the concentration
mappings in `Reactor.init`), and the model collapses that unreachable
case to `nan`. -/
def Expr.evalVal : Expr → List (String × Val) → Val
  | .const q, _ => .fin q
  | .var s, env => (env.lookup s).getD .nan
  | .add a b, env => (a.evalVal env).add (b.evalVal env)
  | .mul a b, env => (a.evalVal env).mul (b.evalVal env)
  | .pow a n, env => (a.evalVal env).pow n

/-- `reactions.py` — a constructed `Reaction`: name, insertion-ordered
`species_coeffs` mapping (Python `dict(zip(species, coeffs))`, modelled
as an association list with the same order) and the parsed rate law. -/
structure Reaction where
  name : String
  species_coeffs : List (String × ℚ)
  rate_law : Expr
deriving DecidableEq

/-- `Reaction.__init__`: length check, `species_coeffs` construction,
free-symbol validation and duplicate check, in source order.  Errors are
`ValueError`s in the source; the message text is irrelevant to the
claims and is kept as a plain string. -/
def Reaction.init (name : String) (species : List String) (coeffs : List ℚ)
    (rate_law : Expr) : Except String Reaction :=
  if species.length ≠ coeffs.length then
    .error "Length of species and coefficients must match."
  else
    let species_coeffs := species.zip coeffs
    match rate_law.freeSymbols.find? (fun s => (species_coeffs.lookup s).isNone) with
    | some s => .error ("Symbol " ++ s ++ " is not specified as a species.")
    | none =>
      if species.Nodup then .ok ⟨name, species_coeffs, rate_law⟩
      else .error "Species cannot be repeated in the species list."

/-- `Reaction.calculate_rate`: substitutes the given concentrations into
the rate law and returns the resulting sympy expression (the source has
no numeric coercion and no missing-symbol check here). -/
def Reaction.calculate_rate (r : Reaction) (concentrations : List (String × ℚ)) : Expr :=
  r.rate_law.subs concentrations

/-- Lexicographic order on character lists (by code point), matching the
order Python's `sorted` uses on strings. -/
def charListLe : List Char → List Char → Bool
  | [], _ => true
  | _ :: _, [] => false
  | c :: cs, d :: ds =>
    if c.toNat < d.toNat then true
    else if d.toNat < c.toNat then false
    else charListLe cs ds

/-- `a ≤ b` on strings by code points (Python string comparison). -/
def strLe (a b : String) : Bool := charListLe a.data b.data

/-- Python's `dict(sorted(d.items()))`: the association list re-ordered
by ascending key (keys are unique, so stability is irrelevant). -/
def sortedDict (d : List (String × ℚ)) : List (String × ℚ) :=
  d.insertionSort (fun a b => strLe a.1 b.1)

/-- The distinct failure modes of `reactors.py` (each a `ValueError`, a
`KeyError`/`IndexError`, or a `NameError` in the source; the constructor
records which check fired, the message text being irrelevant to the
claims). -/
inductive RcError where
  | volumeNonpositive
  | missingBulkSpecies
  | missingInletSpecies
  | negativeBulkConcentration
  | negativeInletConcentration
  | missingRequiredParameter
  | flowRateNonpositive
  | initialVolumeOutOfRange
  | missingSpan
  | unknownReactorType
  | indexError
  | steadyStateNotReached
  | conversionTooHigh
  | speciesNotFound
deriving DecidableEq

/-- `reactors.py` — a constructed `Reactor`.  The two concentration
mappings are stored sorted by species key (Python
`dict(sorted(...))`).  For a PFR the source never assigns
`initial_bulk_concentrations_dict` (the attribute is absent); the model
stores `[]` there, and no code path of the claims reads it for a PFR. -/
structure Reactor where
  reactor_type : String
  volume : ℚ
  reactions : List Reaction
  initial_bulk_concentrations_dict : List (String × ℚ)
  initial_volume : ℚ
  flow_rate : ℚ
  inlet_concentrations_dict : List (String × ℚ)
deriving DecidableEq

/-- `reactor_type in ["Batch", "Fed-batch", "CSTR"]`, the regime test
the source repeats throughout `reactors.py`. -/
def Reactor.bfc (R : Reactor) : Bool :=
  R.reactor_type = "Batch" ∨ R.reactor_type = "Fed-batch" ∨ R.reactor_type = "CSTR"

/-- The concentration mapping whose sorted key order indexes every
vector and matrix row: the bulk mapping for Batch/Fed-batch/CSTR, the
inlet mapping otherwise. -/
def Reactor.canonicalDict (R : Reactor) : List (String × ℚ) :=
  if R.bfc then R.initial_bulk_concentrations_dict else R.inlet_concentrations_dict

/-- `Reactor.__init__`, check for check in source order:
volume, missing bulk/inlet species for the regime, negative bulk entries
(every type except PFR), negative inlet entries (Fed-batch/CSTR/PFR
only), required parameters (`locals()[p] in (0, {})` for
Fed-batch/CSTR/PFR), non-positive flow rate (every type except Batch),
initial volume out of `[0, volume]` (every type except PFR). -/
def Reactor.init (reactor_type : String) (volume : ℚ) (reactions : List Reaction)
    (initial_bulk_concentrations_dict : List (String × ℚ)) (initial_volume : ℚ)
    (flow_rate : ℚ) (inlet_concentrations_dict : List (String × ℚ)) :
    Except RcError Reactor :=
  if volume ≤ 0 then .error .volumeNonpositive
  else
    let all_species : List String :=
      (reactions.flatMap (fun r => r.species_coeffs.map Prod.fst)).dedup
    let bulkKeys := initial_bulk_concentrations_dict.map Prod.fst
    let inletKeys := inlet_concentrations_dict.map Prod.fst
    let missing_species_bulk : Bool :=
      if reactor_type = "Batch" ∨ reactor_type = "Fed-batch" ∨ reactor_type = "CSTR" then
        all_species.any (fun s => ¬ s ∈ bulkKeys)
      else false
    let missing_species_inlet : Bool :=
      if reactor_type = "Batch" then false
      else all_species.any (fun s => ¬ s ∈ inletKeys)
    if missing_species_bulk then .error .missingBulkSpecies
    else if missing_species_inlet then .error .missingInletSpecies
    else if reactor_type ≠ "PFR" ∧
        initial_bulk_concentrations_dict.any (fun p => p.2 < 0) then
      .error .negativeBulkConcentration
    else if (reactor_type = "Fed-batch" ∨ reactor_type = "CSTR" ∨ reactor_type = "PFR") ∧
        inlet_concentrations_dict.any (fun p => p.2 < 0) then
      .error .negativeInletConcentration
    else if (reactor_type = "Fed-batch" ∨ reactor_type = "CSTR" ∨ reactor_type = "PFR") ∧
        (inlet_concentrations_dict = [] ∨ flow_rate = 0) then
      .error .missingRequiredParameter
    else if reactor_type ≠ "Batch" ∧ flow_rate ≤ 0 then
      .error .flowRateNonpositive
    else if reactor_type ≠ "PFR" ∧ (initial_volume > volume ∨ initial_volume < 0) then
      .error .initialVolumeOutOfRange
    else
      .ok
        { reactor_type := reactor_type
          volume := volume
          reactions := reactions
          initial_bulk_concentrations_dict :=
            if reactor_type ≠ "PFR" then sortedDict initial_bulk_concentrations_dict
            else []
          initial_volume := initial_volume
          flow_rate := flow_rate
          inlet_concentrations_dict :=
            if inlet_concentrations_dict ≠ [] then sortedDict inlet_concentrations_dict
            else [] }

/-- Guarded numpy write `m[j][i] = v`: an out-of-range index raises
`IndexError` (modelled as `none`). -/
def setEntry (m : List (List ℚ)) (j i : ℕ) (v : ℚ) : Option (List (List ℚ)) :=
  match m.get? j with
  | none => none
  | some row =>
    if i < row.length then some (m.set j (row.set i v))
    else none

/-- `Reactor.initialize_coeffs_matrix`.  The first regime test of the
source is the literal list `["Batch", "Fed-batch, CSTR"]` — its second
element is the single (typo) string `"Fed-batch, CSTR"`, so for
Fed-batch and CSTR reactors `num_species` is taken from the *inlet*
mapping, while the fill loop below it (whose membership list is spelled
correctly) iterates over the *bulk* keys.  `none` models the
`IndexError` this raises whenever a reaction species sits at a bulk
index that exceeds the inlet size. -/
def Reactor.initialize_coeffs_matrix (R : Reactor) : Option (List (List ℚ)) :=
  let num_species :=
    if R.reactor_type = "Batch" ∨ R.reactor_type = "Fed-batch, CSTR" then
      R.initial_bulk_concentrations_dict.length
    else R.inlet_concentrations_dict.length
  let num_reactions := R.reactions.length
  let zeros : List (List ℚ) :=
    List.replicate num_species (List.replicate num_reactions 0)
  let loopKeys : List String :=
    if R.bfc then R.initial_bulk_concentrations_dict.map Prod.fst
    else R.inlet_concentrations_dict.map Prod.fst
  R.reactions.enum.foldlM (fun m p =>
    loopKeys.enum.foldlM (fun m' q =>
      match p.2.species_coeffs.lookup q.2 with
      | some c => setEntry m' q.1 p.1 c
      | none => pure m') m) zeros

/-- The current liquid volume of a Fed-batch/CSTR vessel at coordinate
`x`: `min(initial_volume + flow_rate * x, volume)`, the expression the
source repeats at every use site. -/
def Reactor.currentVolume (R : Reactor) (x : ℚ) : ℚ :=
  min (R.initial_volume + R.flow_rate * x) R.volume

/-- `Reactor.calculate_concentration` (§4.3 concentration recovery).
For an unrecognized reactor type the source leaves the local
`concentrations` unassigned and raises at the `return`; no claim
evaluates that branch, modelled as `[]`. -/
def Reactor.calculate_concentration (R : Reactor) (x : ℚ) (y : List ℚ) : List ℚ :=
  if R.reactor_type = "Batch" then y.map (fun a => a / R.volume)
  else if R.reactor_type = "Fed-batch" ∨ R.reactor_type = "CSTR" then
    let volume := R.currentVolume x
    if volume = 0 then y.map (fun a => a * 0)
    else y.map (fun a => a / volume)
  else if R.reactor_type = "PFR" then y.map (fun a => a / R.flow_rate)
  else []

/-- `Reactor.calc_reaction_rates` at a concentration assignment: one
rate-law value per reaction, in reaction order. -/
def Reactor.calc_reaction_rates (R : Reactor) (concentrations_dict : List (String × Val)) :
    List Val :=
  R.reactions.map (fun r => r.rate_law.evalVal concentrations_dict)

/-- `Reactor.calc_transformation_rates`: `np.dot(coeffs_matrix,
reaction_rates)`, one net production rate per matrix row. -/
def Reactor.calc_transformation_rates (coeffs_matrix : List (List ℚ))
    (reaction_rates : List Val) : List Val :=
  coeffs_matrix.map (fun row =>
    ((row.zip reaction_rates).map (fun p => (Val.fin p.1).mul p.2)).foldl Val.add (Val.fin 0))

/-- Scalar times vector, `c * v` elementwise. -/
def vscale (c : ℚ) (v : List Val) : List Val := v.map (fun a => (Val.fin c).mul a)

/-- Elementwise vector sum. -/
def vadd (a b : List Val) : List Val := List.zipWith Val.add a b

/-- Elementwise vector difference. -/
def vsub (a b : List Val) : List Val := List.zipWith Val.sub a b

/-- The inlet concentration vector
`np.array(list(self.inlet_concentrations_dict.values()))`. -/
def Reactor.inletVector (R : Reactor) : List Val :=
  R.inlet_concentrations_dict.map (fun p => Val.fin p.2)

/-- The transformation-rate vector the ODE computes at `(x, y)`:
recovered concentrations, zipped with the canonical species keys,
evaluated through every rate law, multiplied by the stoichiometry
matrix.  `none` propagates the matrix `IndexError`. -/
def Reactor.transformationRatesAt (R : Reactor) (coeffs_matrix : List (List ℚ))
    (x : ℚ) (y : List ℚ) : List Val :=
  let concentrations := R.calculate_concentration x y
  let concentrations_dict :=
    (R.canonicalDict.map Prod.fst).zip (concentrations.map Val.fin)
  Reactor.calc_transformation_rates coeffs_matrix
    (R.calc_reaction_rates concentrations_dict)

/-- The `ODE` closure inside `Reactor.run` (lines 354–416): rate of
change of moles (molar flow for PFR) at `(x, y)`.  For an unrecognized
type the source raises (`dy_dx` unassigned). -/
def Reactor.odeRHS (R : Reactor) (x : ℚ) (y : List ℚ) : Except RcError (List Val) :=
  match R.initialize_coeffs_matrix with
  | none => .error .indexError
  | some coeffs_matrix =>
    let concentrations := R.calculate_concentration x y
    let transformation_rates := R.transformationRatesAt coeffs_matrix x y
    if R.reactor_type = "Batch" then
      .ok (vscale R.volume transformation_rates)
    else if R.reactor_type = "Fed-batch" then
      let volume := R.currentVolume x
      let current_flow_rate_inlet := if volume < R.volume then R.flow_rate else 0
      .ok (vadd (vscale volume transformation_rates)
        (vscale current_flow_rate_inlet R.inletVector))
    else if R.reactor_type = "CSTR" then
      let volume := R.currentVolume x
      let current_flow_rate_outlet := if volume < R.volume then 0 else R.flow_rate
      .ok (vsub
        (vadd (vscale volume transformation_rates) (vscale R.flow_rate R.inletVector))
        (vscale current_flow_rate_outlet (concentrations.map Val.fin)))
    else if R.reactor_type = "PFR" then
      .ok transformation_rates
    else .error .unknownReactorType

/-- The ODE solver collaborator (scipy's `solve_ivp`, out of scope per
§1 of the spec): receives the right-hand side, the span end and the
initial state, returns the sampled trajectory as aligned
`(coordinate, state)` pairs. -/
abbrev Solver := (ℚ → List ℚ → Except RcError (List Val)) → ℚ → List ℚ → List (ℚ × List ℚ)

/-- The initial state vector of `Reactor.run` (lines 419–430); for an
unrecognized type no branch assigns it and the source raises
(`NameError`), modelled as `none`. -/
def Reactor.initialState (R : Reactor) : Option (List ℚ) :=
  if R.reactor_type = "Batch" then
    some (R.initial_bulk_concentrations_dict.map (fun p => p.2 * R.volume))
  else if R.reactor_type = "Fed-batch" ∨ R.reactor_type = "CSTR" then
    some (R.initial_bulk_concentrations_dict.map (fun p => p.2 * R.initial_volume))
  else if R.reactor_type = "PFR" then
    some (R.inlet_concentrations_dict.map (fun p => p.2 * R.flow_rate))
  else none

/-- The concentration post-processing of `Reactor.run` (lines 448–462).
For Fed-batch/CSTR, when the volume at the *first* sample is zero the
first row is set to `np.nan` and only the remaining rows are divided by
their volumes; there is no per-row zero-volume guard.  (On an empty
trajectory the source's `volume[0]` would raise; scipy always returns
the requested sample points on success, and every claim constrains the
trajectory explicitly.) -/
def Reactor.postConcentrations (R : Reactor) (x_array : List ℚ) (y : List (List ℚ)) :
    List (List Val) :=
  if R.reactor_type = "Batch" then
    y.map (fun row => row.map (fun a => Val.div (.fin a) (.fin R.volume)))
  else if R.reactor_type = "Fed-batch" ∨ R.reactor_type = "CSTR" then
    let volume := x_array.map (fun t => R.currentVolume t)
    match volume with
    | [] => []
    | v0 :: _ =>
      if v0 = 0 then
        List.replicate (y.headD []).length Val.nan ::
          List.zipWith (fun row v => row.map (fun a => Val.div (.fin a) (.fin v)))
            (y.drop 1) (volume.drop 1)
      else
        List.zipWith (fun row v => row.map (fun a => Val.div (.fin a) (.fin v))) y volume
  else if R.reactor_type = "PFR" then
    y.map (fun row => row.map (fun a => Val.div (.fin a) (.fin R.flow_rate)))
  else []

/-- Column `i` of a sample-major matrix (`m[:, i]`).  The source
guarantees rectangular rows via `reshape`; the default is never hit on
the claims' inputs. -/
def colVal (m : List (List Val)) (i : ℕ) : List Val := m.map (fun row => row.getD i Val.nan)

/-- Column `i` of a sample-major rational matrix. -/
def colRat (m : List (List ℚ)) (i : ℕ) : List ℚ := m.map (fun row => row.getD i 0)

/-- One insertion into a Python dict under construction: an existing
key has its value replaced in place (it keeps its first-insertion
position), a new key is appended. -/
def pyDictInsert {α : Type} (acc : List (String × α)) (p : String × α) :
    List (String × α) :=
  if p.1 ∈ acc.map Prod.fst then
    acc.map (fun q => if q.1 = p.1 then (q.1, p.2) else q)
  else acc ++ [p]

/-- A Python dict comprehension over a sequence of key/value pairs:
successive insertions, so duplicate keys collapse into a single entry
(at the first occurrence's position, holding the last occurrence's
value).  The reaction-rate dicts of `run` are keyed by reaction *name*,
which nothing forbids from repeating across reactions, so this collapse
is observable there. -/
def pyDict {α : Type} (l : List (String × α)) : List (String × α) :=
  l.foldl pyDictInsert []

/-- The full output of one `Reactor.run` call: sample coordinates,
per-species concentration trajectory, per-species raw state (moles or
molar flow) trajectory, per-reaction rate trajectory and per-species
transformation-rate trajectory.  `run` without `full_output` returns the
first two components; the claims about it never depend on the flag. -/
structure RunResult where
  x_array : List ℚ
  concentrations_dict : List (String × List Val)
  y_dict : List (String × List ℚ)
  reaction_rates_dict : List (String × List Val)
  transformation_rates_dict : List (String × List Val)
deriving DecidableEq

/-- `Reactor.run`: span check (Batch/Fed-batch/CSTR require `x > 0`),
initial state, delegation to the solver, concentration post-processing,
and the per-sample recomputation of reaction and transformation rates.
The stoichiometry matrix is bound once here; in the source the same
construction runs inside the `ODE` closure at every solver step and
again at line 480, so its `IndexError` aborts the call in both
placements. -/
def Reactor.run (R : Reactor) (solver : Solver) (x : ℚ) : Except RcError RunResult :=
  if R.bfc ∧ x ≤ 0 then .error .missingSpan
  else
    match R.initialState with
    | none => .error .unknownReactorType
    | some initial_y =>
      match R.initialize_coeffs_matrix with
      | none => .error .indexError
      | some coeffs_matrix =>
        let traj := solver (fun t yt => R.odeRHS t yt) x initial_y
        let x_array := traj.map Prod.fst
        let y := traj.map Prod.snd
        let concentrations := R.postConcentrations x_array y
        let keys := R.canonicalDict.map Prod.fst
        let concentrations_dict := keys.enum.map (fun p => (p.2, colVal concentrations p.1))
        let rates : List (List Val) := (List.range x_array.length).map (fun i =>
          let concentrations_at_x := concentrations_dict.map (fun p => (p.1, p.2.getD i Val.nan))
          R.calc_reaction_rates concentrations_at_x)
        let trs : List (List Val) :=
          rates.map (fun ri => Reactor.calc_transformation_rates coeffs_matrix ri)
        .ok
          { x_array := x_array
            concentrations_dict := concentrations_dict
            y_dict := keys.enum.map (fun p => (p.2, colRat y p.1))
            reaction_rates_dict :=
              pyDict (R.reactions.enum.map (fun p => (p.2.name, colVal rates p.1)))
            transformation_rates_dict := keys.enum.map (fun p => (p.2, colVal trs p.1)) }

/-- `{key: value[-1] for ...}` over a `Val`-valued trajectory dict;
`none` models the `IndexError` on an empty sequence. -/
def lastVals (d : List (String × List Val)) : Option (List (String × Val)) :=
  d.mapM (fun p => (p.2.getLast?).map (fun v => (p.1, v)))

/-- `{key: value[-1] for ...}` over a rational-valued trajectory dict. -/
def lastRats (d : List (String × List ℚ)) : Option (List (String × ℚ)) :=
  d.mapM (fun p => (p.2.getLast?).map (fun v => (p.1, v)))

/-- `{key: value[i] for ...}` over a `Val`-valued trajectory dict. -/
def idxVals (d : List (String × List Val)) (i : ℕ) : Option (List (String × Val)) :=
  d.mapM (fun p => (p.2.get? i).map (fun v => (p.1, v)))

/-- `{key: value[i] for ...}` over a rational-valued trajectory dict. -/
def idxRats (d : List (String × List ℚ)) (i : ℕ) : Option (List (String × ℚ)) :=
  d.mapM (fun p => (p.2.get? i).map (fun v => (p.1, v)))

/-- Sample `i` satisfies the steady-state test: *every* species'
transformation-rate magnitude is below the threshold
(`np.all(np.abs(transformation_rates) < threshold, axis=1)` at row
`i`). -/
def belowThresholdAt (threshold : ℚ) (trd : List (String × List Val)) (i : ℕ) : Bool :=
  trd.all (fun p => (p.2.getD i Val.nan).absLt threshold)

/-- `np.where(below_threshold)[0][0]`: the first sample index (among
`n` samples) at which every species is below the threshold. -/
def qualifyingIndex (threshold : ℚ) (n : ℕ) (trd : List (String × List Val)) : Option ℕ :=
  (List.range n).find? (belowThresholdAt threshold trd)

/-- The qualifying-sample test applied to one run's output: the first
sample index of the trajectory at which every species'
transformation-rate magnitude is below the threshold. -/
def runQual (threshold : ℚ) (res : RunResult) : Option ℕ :=
  qualifyingIndex threshold res.x_array.length res.transformation_rates_dict

/-- Steady-state (or conversion) snapshot: the coordinate plus the
concentration, state, reaction-rate and transformation-rate mappings at
one sample. -/
structure SSResult where
  x : ℚ
  concentrations : List (String × Val)
  y : List (String × ℚ)
  reaction_rates : List (String × Val)
  transformation_rates : List (String × Val)
deriving DecidableEq

/-- The snapshot the general `find_steady_state` branch builds at the
first qualifying sample index. -/
def ssSnapshotAt (res : RunResult) (i : ℕ) : Except RcError SSResult :=
  match res.x_array.get? i, idxVals res.concentrations_dict i, idxRats res.y_dict i,
      idxVals res.reaction_rates_dict i, idxVals res.transformation_rates_dict i with
  | some xss, some c, some yv, some rr, some tr => .ok ⟨xss, c, yv, rr, tr⟩
  | _, _, _, _, _ => .error .indexError

/-- The `while not steady_state_reached and iteration_count <
max_iterations` loop of `find_steady_state`, with the remaining
iteration budget as fuel: run at the current guess, stop at the first
qualifying sample, otherwise retry with ten times the guess. -/
def Reactor.ssLoop (R : Reactor) (solver : Solver) (threshold : ℚ) :
    ℚ → ℕ → Except RcError SSResult
  | _, 0 => .error .steadyStateNotReached
  | guess, m + 1 =>
    match R.run solver guess with
    | .error e => .error e
    | .ok res =>
      match runQual threshold res with
      | some i => ssSnapshotAt res i
      | none => R.ssLoop solver threshold (10 * guess) m

/-- `Reactor.find_steady_state`: the CSTR branch simulates to
`3 * volume / flow_rate` and reports the final sampled point (`[-1]`)
of every trajectory unconditionally; every other type goes through the
iterative `ssLoop`. -/
def Reactor.find_steady_state (R : Reactor) (solver : Solver) (guess threshold : ℚ)
    (max_iterations : ℕ) : Except RcError SSResult :=
  if R.reactor_type = "CSTR" then
    let x_steady_state := 3 * (R.volume / R.flow_rate)
    match R.run solver x_steady_state with
    | .error e => .error e
    | .ok res =>
      match lastVals res.concentrations_dict, lastRats res.y_dict,
          lastVals res.reaction_rates_dict, lastVals res.transformation_rates_dict with
      | some c, some yv, some rr, some tr => .ok ⟨x_steady_state, c, yv, rr, tr⟩
      | _, _, _, _ => .error .indexError
  else R.ssLoop solver threshold guess max_iterations

/-- `Reactor.find_conversion`: initial concentration of the queried
species from the regime's mapping (`KeyError` if absent), steady state
via `find_steady_state` (with its default threshold `1e-3` and budget
`10`), the maximal-conversion check, then a simulation out to the
steady-state coordinate scanned for the first sample at or below the
target concentration.  The success snapshots for concentration, state
and transformation rate are one-key literals `{specie: ...}`; the
reaction-rate snapshot is a comprehension over all reactions. -/
def Reactor.find_conversion (R : Reactor) (solver : Solver) (specie : String)
    (conversion_target : ℚ) (guess : ℚ) : Except RcError SSResult :=
  let dict := if R.bfc then R.initial_bulk_concentrations_dict
    else R.inlet_concentrations_dict
  match dict.lookup specie with
  | none => .error .speciesNotFound
  | some initial_concentration_specie =>
    let final_concentration_specie := initial_concentration_specie * (1 - conversion_target)
    match R.find_steady_state solver guess (1/1000) 10 with
    | .error e => .error e
    | .ok ss =>
      match ss.concentrations.lookup specie with
      | none => .error .speciesNotFound
      | some concentration_steady_state_specie =>
        let maximal_conversion : Val :=
          ((Val.fin initial_concentration_specie).sub
            concentration_steady_state_specie).div
            (Val.fin initial_concentration_specie)
        if maximal_conversion.ltb (Val.fin conversion_target) then
          .error .conversionTooHigh
        else
          match R.run solver ss.x with
          | .error e => .error e
          | .ok res =>
            match res.concentrations_dict.lookup specie with
            | none => .error .speciesNotFound
            | some concList =>
              match concList.findIdx?
                  (fun v => v.leb (Val.fin final_concentration_specie)) with
              | none => .error .indexError
              | some idx =>
                match res.y_dict.lookup specie,
                    res.transformation_rates_dict.lookup specie with
                | some yList, some trList =>
                  match res.x_array.get? idx with
                  | some xconv =>
                    .ok ⟨xconv,
                      [(specie, concList.getD idx Val.nan)],
                      [(specie, yList.getD idx 0)],
                      res.reaction_rates_dict.map (fun p => (p.1, p.2.getD idx Val.nan)),
                      [(specie, trList.getD idx Val.nan)]⟩
                  | none => .error .indexError
                | _, _ => .error .speciesNotFound

/-! ### Concrete instances used by the witnesses and counterexamples -/

/-- Reaction consuming species `A` at rate `A` (rate law `1*A`). -/
def demoRA : Reaction := ⟨"RA", [("A", -1)], .var "A"⟩

/-- Reaction consuming species `B` at rate `B`. -/
def demoRB : Reaction := ⟨"RB", [("B", -1)], .var "B"⟩

/-- Reaction on species `A` with the constant rate law `0`. -/
def demoRZ : Reaction := ⟨"RZ", [("A", -1)], .const 0⟩

/-- The `Reaction 1` of the repository's test suite:
`Reaction("Reaction 1", ["A", "B", "C"], [-1, -1, 1], "0.05*A*B")`. -/
def demoR1 : Reaction :=
  ⟨"Reaction 1", [("A", -1), ("B", -1), ("C", 1)],
    .mul (.mul (.const (1/20)) (.var "A")) (.var "B")⟩

/-- A validly constructed Fed-batch reactor whose bulk mapping has one
species (`"A"`) more than its inlet mapping: `Reactor("Fed-batch", 1,
[demoRB], {"A": 1, "B": 1}, 0, 1, {"B": 1})`.  Every species of every
reaction (only `"B"`) has an entry in both mappings, so construction
succeeds. -/
def fedbatchMismatch : Reactor :=
  ⟨"Fed-batch", 1, [demoRB], [("A", 1), ("B", 1)], 0, 1, [("B", 1)]⟩

/-- `Reactor("Fed-batch", 10, [demoRA], {"A": 5}, 0, 1, {"A": 1})`. -/
def R2demo : Reactor := ⟨"Fed-batch", 10, [demoRA], [("A", 5)], 0, 1, [("A", 1)]⟩

/-- A solver returning the fixed two-sample trajectory
`[(0, [0]), (1, [2])]`. -/
def s2demo : Solver := fun _ _ _ => [(0, [0]), (1, [2])]

/-- The full output of `R2demo.run s2demo 1`. -/
def c2RunRes : RunResult :=
  ⟨[0, 1], [("A", [.nan, .fin 2])], [("A", [0, 2])], [("RA", [.nan, .fin 2])],
    [("A", [.nan, .fin (-2)])]⟩

/-- `Reactor("Batch", 2, [demoRZ], {"A": 1})`. -/
def demoBatch : Reactor := ⟨"Batch", 2, [demoRZ], [("A", 1)], 0, 0, []⟩

/-- A solver returning a single sample at the end of the requested span
with the initial state unchanged. -/
def s6demo : Solver := fun _ x y0 => [(x, y0)]

/-- The full output of `demoBatch.run s6demo 1`. -/
def demoBatchRunRes : RunResult :=
  ⟨[1], [("A", [.fin 1])], [("A", [2])], [("RZ", [.fin 0])], [("A", [.fin 0])]⟩

/-- The steady-state snapshot `demoBatch.find_steady_state s6demo 1
(1/1000) 10` produces. -/
def demoSS : SSResult := ⟨1, [("A", .fin 1)], [("A", 2)], [("RZ", .fin 0)], [("A", .fin 0)]⟩

/-- `Reactor("CSTR", 10, [demoRZ], {"A": 1}, 1, 2, {"A": 1})`;
residence time `10/2`, so the CSTR steady-state coordinate is `15`. -/
def demoCSTR : Reactor := ⟨"CSTR", 10, [demoRZ], [("A", 1)], 1, 2, [("A", 1)]⟩

/-- The snapshot of `demoCSTR.find_steady_state` at the final sample of
a `run` over `[0, 15]` under the solver `s6demo`. -/
def demoCSTRSS : SSResult :=
  ⟨15, [("A", .fin (1/10))], [("A", 1)], [("RZ", .fin 0)], [("A", .fin 0)]⟩

/-- The snapshot `demoBatch.find_conversion s6demo "A" 0 1` returns. -/
def demoConv : SSResult :=
  ⟨1, [("A", .fin 1)], [("A", 2)], [("RZ", .fin 0)], [("A", .fin 0)]⟩

/-- A second reaction deliberately *sharing the name* `"RZ"` with
`demoRZ` (it produces `A` instead of consuming it); `Reaction.__init__`
imposes no name uniqueness. -/
def demoRZdup : Reaction := ⟨"RZ", [("A", 1)], .const 0⟩

/-- `Reactor("Batch", 2, [demoRZ, demoRZdup], {"A": 1})` — two distinct
reactions carrying the same name. -/
def dupNameBatch : Reactor :=
  ⟨"Batch", 2, [demoRZ, demoRZdup], [("A", 1)], 0, 0, []⟩

/-- The snapshot `dupNameBatch.find_conversion s6demo "A" 0 1` returns:
its reaction-rate mapping has a single entry (the two same-named
reactions collapse in the Python dict) although the reactor has two
reactions. -/
def dupConvRes : SSResult :=
  ⟨1, [("A", .fin 1)], [("A", 2)], [("RZ", .fin 0)], [("A", .fin 0)]⟩

/-! ### Helper lemmas -/

/-- A symbol is free in a substituted expression iff it was free before
substitution and the mapping does not bind it. -/
theorem mem_freeSymbols_subs (e : Expr) (env : List (String × ℚ)) (s : String) :
    s ∈ (e.subs env).freeSymbols ↔ s ∈ e.freeSymbols ∧ env.lookup s = none := by
  induction e with
  | const q => simp [Expr.subs, Expr.freeSymbols]
  | var v =>
    cases hl : env.lookup v with
    | some q =>
      simp only [Expr.subs, hl, Expr.freeSymbols, List.not_mem_nil, false_iff,
        List.mem_singleton, not_and]
      rintro rfl
      simp [hl]
    | none =>
      simp only [Expr.subs, hl, Expr.freeSymbols, List.mem_singleton, iff_self_and]
      rintro rfl
      exact hl
  | add a b iha ihb =>
    simp only [Expr.subs, Expr.freeSymbols, List.mem_append, iha, ihb]
    tauto
  | mul a b iha ihb =>
    simp only [Expr.subs, Expr.freeSymbols, List.mem_append, iha, ihb]
    tauto
  | pow a n iha => simpa [Expr.subs, Expr.freeSymbols] using iha

unseal Rat.mul Rat.add Rat.sub Rat.inv in
/-- C1: the spec says `initialize_coeffs_matrix` has one row per species
of the canonical (bulk) mapping for a Fed-batch reactor.  The code
instead sizes the matrix from the inlet mapping (the membership list
`["Batch", "Fed-batch, CSTR"]` contains the typo string
`"Fed-batch, CSTR"`), while filling rows indexed by the bulk keys, and
raises `IndexError` on this validly constructed reactor; the claim's
matrix would be the 2×1 matrix `[[0], [-1]]`. -/
theorem c1_code_evaluation :
    Reactor.init "Fed-batch" 1 [demoRB] [("A", 1), ("B", 1)] 0 1 [("B", 1)] =
      .ok fedbatchMismatch ∧
    fedbatchMismatch.initialize_coeffs_matrix = none := ⟨by decide, by decide⟩

unseal Rat.mul Rat.add Rat.sub Rat.inv in
/-- C3 counterexample: `demoR1` is the validly constructed
`Reaction("Reaction 1", ["A","B","C"], [-1,-1,1], "0.05*A*B")` of the
test suite; called with a concentration mapping binding only `A`,
`calculate_rate` does not fail — it returns the partially substituted,
unevaluated expression `0.05*1*B`, with `B` still free. -/
theorem c3_counterexample :
    Reaction.init "Reaction 1" ["A", "B", "C"] [-1, -1, 1]
        (.mul (.mul (.const (1/20)) (.var "A")) (.var "B")) = .ok demoR1 ∧
    demoR1.calculate_rate [("A", 1)] =
      .mul (.mul (.const (1/20)) (.const 1)) (.var "B") ∧
    (demoR1.calculate_rate [("A", 1)]).freeSymbols = ["B"] :=
  ⟨by decide, by decide, by decide⟩

/-- C3 (amended): `calculate_rate` raises no error on a mapping that
misses rate-law symbols; it substitutes the bound symbols and returns
the resulting expression, in which exactly the unbound rate-law symbols
remain free. -/
theorem c3_calculate_rate_free_symbols (r : Reaction) (conc : List (String × ℚ))
    (s : String) :
    s ∈ (r.calculate_rate conc).freeSymbols ↔
      s ∈ r.rate_law.freeSymbols ∧ conc.lookup s = none :=
  mem_freeSymbols_subs r.rate_law conc s

unseal Rat.mul Rat.add Rat.sub Rat.inv in
/-- C9 counterexample: the claim says an unrecognized `reactor_type`
validates under the PFR rules.  With a negative inlet entry, PFR
construction fails but `"Foo"` construction succeeds — the inlet
non-negativity check is skipped for unrecognized types. -/
theorem c9_counterexample :
    (Reactor.init "PFR" 1 [demoRA] [] 0 1 [("A", -1)]).isOk = false ∧
    (Reactor.init "Foo" 1 [demoRA] [] 0 1 [("A", -1)]).isOk = true :=
  ⟨by decide, by decide⟩

set_option maxHeartbeats 1000000 in
/-- C9 (amended): for an unrecognized reactor type (anything other than
Batch, Fed-batch, CSTR and PFR), construction succeeds exactly when the
volume is positive, every reaction species has an inlet entry, every
*bulk* entry is non-negative, the flow rate is positive and the initial
volume lies in `[0, volume]`; the inlet entries' signs are not checked,
and the constructed reactor carries the unrecognized tag. -/
theorem c9_unrecognized_type_validation (t : String) (volume : ℚ)
    (reactions : List Reaction) (bulk : List (String × ℚ)) (iv q : ℚ)
    (inlet : List (String × ℚ))
    (hB : t ≠ "Batch") (hF : t ≠ "Fed-batch") (hC : t ≠ "CSTR") (hP : t ≠ "PFR") :
    ((Reactor.init t volume reactions bulk iv q inlet).isOk = true ↔
      (0 < volume ∧
        (∀ r ∈ reactions, ∀ p ∈ r.species_coeffs, p.1 ∈ inlet.map Prod.fst) ∧
        (∀ p ∈ bulk, 0 ≤ p.2) ∧ 0 < q ∧ 0 ≤ iv ∧ iv ≤ volume)) ∧
    (∀ R, Reactor.init t volume reactions bulk iv q inlet = .ok R →
      R.reactor_type = t) := by
  constructor
  · unfold Reactor.init
    simp only [hB, hF, hC, hP, false_or, if_false, ite_false, Bool.false_eq_true,
      false_and, if_true, ite_true, ne_eq, not_false_iff, true_and]
    split_ifs with h1 h2 h3 h4 h5
    · refine iff_of_false (by simp [Except.isOk, Except.toBool]) ?_
      rintro ⟨hv, -⟩
      linarith
    · refine iff_of_false (by simp [Except.isOk, Except.toBool]) ?_
      rintro ⟨-, hmiss, -⟩
      simp only [List.any_eq_true, decide_eq_true_eq, List.mem_dedup,
        List.mem_flatMap, List.mem_map] at h2
      obtain ⟨s, ⟨r, hr, p, hp, hps⟩, hnot⟩ := h2
      obtain ⟨a, ha, hap⟩ := List.mem_map.1 (hmiss r hr p hp)
      exact hnot ⟨a, ha, by rw [hap, hps]⟩
    · refine iff_of_false (by simp [Except.isOk, Except.toBool]) ?_
      rintro ⟨-, -, hneg, -⟩
      simp only [List.any_eq_true, decide_eq_true_eq] at h3
      obtain ⟨p, hp, hneg'⟩ := h3
      linarith [hneg p hp]
    · refine iff_of_false (by simp [Except.isOk, Except.toBool]) ?_
      rintro ⟨-, -, -, hq, -⟩
      linarith
    · refine iff_of_false (by simp [Except.isOk, Except.toBool]) ?_
      rintro ⟨-, -, -, -, hiv0, hivV⟩
      rcases h5 with h | h <;> linarith
    · refine iff_of_true (by simp [Except.isOk, Except.toBool]) ?_
      refine ⟨by linarith, ?_, ?_, by linarith, ?_, ?_⟩
      · intro r hr p hp
        by_contra hnot
        exact h2 (by
          simp only [List.any_eq_true, decide_eq_true_eq, List.mem_dedup,
            List.mem_flatMap, List.mem_map]
          exact ⟨p.1, ⟨r, hr, p, hp, rfl⟩,
            fun ⟨a, ha, hap⟩ => hnot (List.mem_map.2 ⟨a, ha, hap⟩)⟩)
      · intro p hp
        by_contra hneg
        exact h3 (by
          simp only [List.any_eq_true, decide_eq_true_eq]
          exact ⟨p, hp, by linarith⟩)
      · by_contra h
        exact h5 (Or.inr (by linarith))
      · by_contra h
        exact h5 (Or.inl (by linarith))
    · refine iff_of_true (by simp [Except.isOk, Except.toBool]) ?_
      refine ⟨by linarith, ?_, ?_, by linarith, ?_, ?_⟩
      · intro r hr p hp
        by_contra hnot
        exact h2 (by
          simp only [List.any_eq_true, decide_eq_true_eq, List.mem_dedup,
            List.mem_flatMap, List.mem_map]
          exact ⟨p.1, ⟨r, hr, p, hp, rfl⟩,
            fun ⟨a, ha, hap⟩ => hnot (List.mem_map.2 ⟨a, ha, hap⟩)⟩)
      · intro p hp
        by_contra hneg
        exact h3 (by
          simp only [List.any_eq_true, decide_eq_true_eq]
          exact ⟨p, hp, by linarith⟩)
      · by_contra h
        exact h5 (Or.inr (by linarith))
      · by_contra h
        exact h5 (Or.inl (by linarith))
  · intro R hR
    unfold Reactor.init at hR
    simp only [hB, hF, hC, hP, false_or, if_false, ite_false, Bool.false_eq_true,
      false_and, if_true, ite_true, ne_eq, not_false_iff, true_and] at hR
    split_ifs at hR <;>
      first
        | exact Except.noConfusion hR
        | (injection hR with h; rw [← h])

/-- Witness for C9's amended theorem: a `"Foo"` reactor with an extra
(never inspected) bulk species and positive parameters constructs
successfully. -/
theorem c9_witness :
    (Reactor.init "Foo" 1 [demoRA] [("B", 2)] 0 1 [("A", 3)]).isOk = true :=
  (c9_unrecognized_type_validation "Foo" 1 [demoRA] [("B", 2)] 0 1 [("A", 3)]
    (by decide) (by decide) (by decide) (by decide)).1.mpr (by decide)

/-- C8: `run` raises the missing-span error exactly for a
Batch/Fed-batch/CSTR reactor with span `x ≤ 0`; a PFR (or any other
type) never hits this check, whatever `x` is. -/
theorem c8_missing_span (R : Reactor) (solver : Solver) (x : ℚ) :
    R.run solver x = .error .missingSpan ↔
      ((R.reactor_type = "Batch" ∨ R.reactor_type = "Fed-batch" ∨
          R.reactor_type = "CSTR") ∧ x ≤ 0) := by
  unfold Reactor.run
  by_cases h : (R.bfc ∧ x ≤ 0)
  · rw [if_pos h]
    simp only [true_iff]
    refine ⟨?_, h.2⟩
    have := h.1
    simpa [Reactor.bfc, decide_eq_true_eq] using this
  · rw [if_neg h]
    constructor
    · intro hrun
      exfalso
      cases hi : R.initialState with
      | none => rw [hi] at hrun; exact absurd hrun (by simp)
      | some y0 =>
        rw [hi] at hrun
        cases hm : R.initialize_coeffs_matrix with
        | none => rw [hm] at hrun; exact absurd hrun (by simp)
        | some M => rw [hm] at hrun; exact absurd hrun (by simp)
    · rintro ⟨hT, hx⟩
      exact absurd ⟨by simp [Reactor.bfc, decide_eq_true_eq]; tauto, hx⟩ h

/-- `get?` on a `zipWith` combines the two `get?`s. -/
theorem zipWith_get? {α β γ : Type} (f : α → β → γ) :
    ∀ (l : List α) (l' : List β) (i : ℕ),
      (List.zipWith f l l').get? i = (l.get? i).bind (fun a => (l'.get? i).map (f a))
  | [], _, _ => by simp
  | _ :: _, [], _ => by simp
  | a :: l, b :: l', 0 => by simp [List.zipWith]
  | a :: l, b :: l', (i + 1) => by simpa [List.zipWith] using zipWith_get? f l l' i

/-- C2 (amended): for a Fed-batch/CSTR reactor, the concentration
trajectory `run` post-processes agrees with
`calculate_concentration(x_i, y_i)` at every sample whose current
volume is nonzero — except that when the volume at the *first* sample
is zero (the `initial_volume = 0` fill-up start), sample `0` is set to
a row of NaN, not to the zeros `calculate_concentration` returns. -/
theorem c2_run_concentration_postprocessing (R : Reactor) (x_array : List ℚ)
    (y : List (List ℚ)) (i : ℕ) (xi : ℚ) (yi : List ℚ)
    (hT : R.reactor_type = "Fed-batch" ∨ R.reactor_type = "CSTR")
    (hxi : x_array.get? i = some xi) (hyi : y.get? i = some yi) :
    (R.currentVolume xi ≠ 0 →
      (R.currentVolume (x_array.headD 0) ≠ 0 ∨ 1 ≤ i) →
      (R.postConcentrations x_array y).get? i =
        some ((R.calculate_concentration xi yi).map Val.fin)) ∧
    (R.currentVolume (x_array.headD 0) = 0 →
      (R.postConcentrations x_array y).get? 0 =
        some (List.replicate (y.headD []).length Val.nan)) := by
  have hnb : ¬ R.reactor_type = "Batch" := by
    rcases hT with h | h <;> rw [h] <;> decide
  have hxne : x_array ≠ [] := by
    intro hcon
    rw [hcon] at hxi
    simp at hxi
  obtain ⟨x0, xt, rfl⟩ : ∃ x0 xt, x_array = x0 :: xt := by
    cases x_array with
    | nil => exact absurd rfl hxne
    | cons a l => exact ⟨a, l, rfl⟩
  have hcc : R.calculate_concentration xi yi =
      if R.currentVolume xi = 0 then yi.map (fun a => a * 0)
      else yi.map (fun a => a / R.currentVolume xi) := by
    unfold Reactor.calculate_concentration
    rw [if_neg hnb, if_pos hT]
  unfold Reactor.postConcentrations
  rw [if_neg hnb, if_pos hT]
  simp only [List.map_cons, List.headD_cons]
  constructor
  · intro hvi hcase
    have hfin : yi.map (fun a => Val.div (.fin a) (.fin (R.currentVolume xi))) =
        (R.calculate_concentration xi yi).map Val.fin := by
      rw [hcc, if_neg hvi]
      simp only [List.map_map]
      refine List.map_congr_left ?_
      intro a _
      simp [Val.div, hvi, Function.comp]
    by_cases hv0 : R.currentVolume x0 = 0
    · rcases hcase with hc | hc
      · exact absurd hv0 hc
      · obtain ⟨j, rfl⟩ : ∃ j, i = j + 1 := ⟨i - 1, by omega⟩
        rw [if_pos hv0]
        simp only [List.get?_cons_succ]
        rw [zipWith_get?]
        have hyj : (y.drop 1).get? j = some yi := by
          rw [List.get?_drop]
          simpa [Nat.add_comm] using hyi
        have hvj : (xt.map (fun t => R.currentVolume t)).get? j =
            some (R.currentVolume xi) := by
          have h2 : ((x0 :: xt).map (fun t => R.currentVolume t)).get? (j + 1) =
              some (R.currentVolume xi) := by
            rw [List.get?_map, hxi]
            rfl
          simpa using h2
        simp only [List.drop_succ_cons, List.drop_zero, hyj, hvj, Option.some_bind]
        exact congrArg some hfin
    · rw [if_neg hv0]
      rw [zipWith_get?]
      have hvj : ((R.currentVolume x0 :: xt.map fun t => R.currentVolume t)).get? i =
          some (R.currentVolume xi) := by
        have h2 : ((x0 :: xt).map (fun t => R.currentVolume t)).get? i =
            some (R.currentVolume xi) := by
          rw [List.get?_map, hxi]
          rfl
        simpa using h2
      simp only [hyi, hvj, Option.some_bind]
      exact congrArg some hfin
  · intro hv0
    rw [if_pos hv0]
    rfl

unseal Rat.mul Rat.add Rat.sub Rat.inv in
/-- C2 counterexample: `R2demo` is a validly constructed Fed-batch
reactor with `initial_volume = 0`.  On the trajectory
`[(0, [0]), (1, [2])]`, `run` reports the species-`A` concentration
sequence `[nan, 2]`, whereas `calculate_concentration(0, [0])` (the
rule the claim says `run` applies, with its zero-volume guard) gives
`0`, not NaN, at the first sample. -/
theorem c2_counterexample :
    Reactor.init "Fed-batch" 10 [demoRA] [("A", 5)] 0 1 [("A", 1)] = .ok R2demo ∧
    R2demo.run s2demo 1 = .ok c2RunRes ∧
    c2RunRes.x_array = [0, 1] ∧
    c2RunRes.y_dict = [("A", [0, 2])] ∧
    c2RunRes.concentrations_dict = [("A", [Val.nan, Val.fin 2])] ∧
    R2demo.calculate_concentration 0 [0] = [0] :=
  ⟨by decide, by decide, by decide, by decide, by decide, by decide⟩

unseal Rat.mul Rat.add Rat.sub Rat.inv in
/-- Witness for C2's amended theorem at the second sample of the same
concrete Fed-batch trajectory. -/
theorem c2_witness :
    (R2demo.postConcentrations [0, 1] [[0], [2]]).get? 1 =
      some ((R2demo.calculate_concentration 1 [2]).map Val.fin) :=
  (c2_run_concentration_postprocessing R2demo [0, 1] [[0], [2]] 1 1 [2]
    (Or.inl rfl) rfl rfl).1 (by decide) (Or.inr (by decide))

/-- An invariant preserved by every step of an `Option`-valued `foldlM`
holds for its result. -/
theorem foldlM_option_invariant {α β : Type} (P : β → Prop) (f : β → α → Option β)
    (hf : ∀ b a b', f b a = some b' → P b → P b') :
    ∀ (l : List α) (b b' : β), l.foldlM f b = some b' → P b → P b'
  | [], b, b', h, hb => by
    exact (Option.some.inj h) ▸ hb
  | a :: l, b, b', h, hb => by
    simp only [List.foldlM_cons] at h
    cases hfa : f b a with
    | none => rw [hfa] at h; simp at h
    | some b1 =>
      rw [hfa] at h
      exact foldlM_option_invariant P f hf l b1 b' (by simpa using h) (hf b a b1 hfa hb)

/-- A successful guarded write preserves the number of rows. -/
theorem setEntry_length (m : List (List ℚ)) (j i : ℕ) (v : ℚ)
    (m' : List (List ℚ)) (h : setEntry m j i v = some m') :
    m'.length = m.length := by
  unfold setEntry at h
  split at h
  · exact Option.noConfusion h
  · split at h
    · cases h
      simp
    · exact Option.noConfusion h

/-- The row count of a successfully built stoichiometry matrix is the
`num_species` the source computed — from the bulk mapping only for
`"Batch"` (and the unmatchable typo string), from the inlet mapping
otherwise. -/
theorem initialize_coeffs_matrix_length (R : Reactor) (M : List (List ℚ))
    (h : R.initialize_coeffs_matrix = some M) :
    M.length = (if R.reactor_type = "Batch" ∨ R.reactor_type = "Fed-batch, CSTR"
      then R.initial_bulk_concentrations_dict.length
      else R.inlet_concentrations_dict.length) := by
  unfold Reactor.initialize_coeffs_matrix at h
  dsimp only at h
  refine foldlM_option_invariant
    (fun m => m.length =
      (if R.reactor_type = "Batch" ∨ R.reactor_type = "Fed-batch, CSTR"
        then R.initial_bulk_concentrations_dict.length
        else R.inlet_concentrations_dict.length)) _ ?_ _ _ M h (by simp)
  intro b a b' hfb hb
  refine foldlM_option_invariant
    (fun m => m.length =
      (if R.reactor_type = "Batch" ∨ R.reactor_type = "Fed-batch, CSTR"
        then R.initial_bulk_concentrations_dict.length
        else R.inlet_concentrations_dict.length)) _ ?_ _ _ b' hfb hb
  intro b2 a2 b2' hfb2 hb2
  cases hl : a.2.species_coeffs.lookup a2.2 with
  | none =>
    rw [hl] at hfb2
    simp only [Option.pure_def, Option.some.injEq] at hfb2
    exact hfb2 ▸ hb2
  | some c =>
    rw [hl] at hfb2
    rw [setEntry_length _ _ _ _ _ hfb2]
    exact hb2

/-- `transformationRatesAt` has one entry per matrix row. -/
theorem transformationRatesAt_length (R : Reactor) (M : List (List ℚ)) (x : ℚ)
    (y : List ℚ) : (R.transformationRatesAt M x y).length = M.length := by
  unfold Reactor.transformationRatesAt Reactor.calc_transformation_rates
  simp

/-- The inlet vector is the `fin`-image of the inlet values. -/
theorem inletVector_eq (R : Reactor) :
    R.inletVector = (R.inlet_concentrations_dict.map Prod.snd).map Val.fin := by
  simp [Reactor.inletVector, List.map_map, Function.comp]

/-- Concentration recovery preserves the state-vector length for
Fed-batch/CSTR. -/
theorem calculate_concentration_length (R : Reactor) (x : ℚ) (y : List ℚ)
    (hT : R.reactor_type = "Fed-batch" ∨ R.reactor_type = "CSTR") :
    (R.calculate_concentration x y).length = y.length := by
  have hnb : ¬ R.reactor_type = "Batch" := by
    rcases hT with h | h <;> rw [h] <;> decide
  unfold Reactor.calculate_concentration
  rw [if_neg hnb, if_pos hT]
  dsimp only
  split <;> simp

/-- Adding `0 ·` a vector of finite values is the identity (including on
NaN entries, since `x + 0 = x` for both finite and NaN `x`). -/
theorem vadd_vscale_zero (v : List Val) (u : List ℚ) (h : v.length = u.length) :
    vadd v (vscale 0 (u.map Val.fin)) = v := by
  induction v generalizing u with
  | nil => simp [vadd]
  | cons a v ih =>
    cases u with
    | nil => simp at h
    | cons b u =>
      have h' : v.length = u.length := by
        simp only [List.length_cons] at h
        omega
      simp only [vadd, vscale, List.map_cons, List.zipWith_cons_cons]
      refine congrArg₂ _ ?_ (ih u h')
      cases a <;> simp [Val.add, Val.mul]

/-- Subtracting `0 ·` a vector of finite values is the identity. -/
theorem vsub_vscale_zero (v : List Val) (u : List ℚ) (h : v.length = u.length) :
    vsub v (vscale 0 (u.map Val.fin)) = v := by
  induction v generalizing u with
  | nil => simp [vsub]
  | cons a v ih =>
    cases u with
    | nil => simp at h
    | cons b u =>
      have h' : v.length = u.length := by
        simp only [List.length_cons] at h
        omega
      simp only [vsub, vscale, List.map_cons, List.zipWith_cons_cons]
      refine congrArg₂ _ ?_ (ih u h')
      cases a <;> simp [Val.sub, Val.mul]

/-- C4: the ODE right-hand side for Fed-batch and CSTR.  While filling
(`current_volume < volume`) both regimes accumulate
`transformation_rates · current_volume + flow_rate · inlet_vector` and
apply no outlet term; once full, Fed-batch reduces to
`transformation_rates · current_volume` alone (no outlet term ever),
while CSTR subtracts the outlet term
`flow_rate · concentration_vector`. -/
theorem c4_ode_rhs_fedbatch_cstr (R : Reactor) (x : ℚ) (y : List ℚ)
    (M : List (List ℚ)) (hM : R.initialize_coeffs_matrix = some M)
    (hy : y.length = R.inlet_concentrations_dict.length) :
    (R.reactor_type = "Fed-batch" →
      R.odeRHS x y = .ok (
        if R.currentVolume x < R.volume then
          vadd (vscale (R.currentVolume x) (R.transformationRatesAt M x y))
            (vscale R.flow_rate R.inletVector)
        else vscale (R.currentVolume x) (R.transformationRatesAt M x y))) ∧
    (R.reactor_type = "CSTR" →
      R.odeRHS x y = .ok (
        if R.currentVolume x < R.volume then
          vadd (vscale (R.currentVolume x) (R.transformationRatesAt M x y))
            (vscale R.flow_rate R.inletVector)
        else
          vsub (vadd (vscale (R.currentVolume x) (R.transformationRatesAt M x y))
              (vscale R.flow_rate R.inletVector))
            (vscale R.flow_rate ((R.calculate_concentration x y).map Val.fin)))) := by
  have htr : (R.transformationRatesAt M x y).length = M.length :=
    transformationRatesAt_length R M x y
  constructor
  · intro hT
    have hcond : ¬ (("Fed-batch" : String) = "Batch" ∨
        ("Fed-batch" : String) = "Fed-batch, CSTR") := by decide
    have hMlen : M.length = R.inlet_concentrations_dict.length := by
      rw [initialize_coeffs_matrix_length R M hM, hT, if_neg hcond]
    unfold Reactor.odeRHS
    rw [hM]
    dsimp only
    rw [hT]
    rw [if_neg (show ¬ (("Fed-batch" : String) = "Batch") by decide), if_pos rfl]
    by_cases hlt : R.currentVolume x < R.volume
    · rw [if_pos hlt, if_pos hlt]
    · rw [if_neg hlt, if_neg hlt]
      refine congrArg _ ?_
      rw [inletVector_eq]
      refine vadd_vscale_zero _ _ ?_
      simp only [vscale, List.length_map, htr, hMlen]
  · intro hT
    have hcond : ¬ (("CSTR" : String) = "Batch" ∨
        ("CSTR" : String) = "Fed-batch, CSTR") := by decide
    have hMlen : M.length = R.inlet_concentrations_dict.length := by
      rw [initialize_coeffs_matrix_length R M hM, hT, if_neg hcond]
    unfold Reactor.odeRHS
    rw [hM]
    dsimp only
    rw [hT]
    rw [if_neg (show ¬ (("CSTR" : String) = "Batch") by decide),
      if_neg (show ¬ (("CSTR" : String) = "Fed-batch") by decide), if_pos rfl]
    by_cases hlt : R.currentVolume x < R.volume
    · rw [if_pos hlt, if_pos hlt]
      refine congrArg _ ?_
      refine vsub_vscale_zero _ _ ?_
      simp only [vadd, vscale, List.length_zipWith, List.length_map, htr, hMlen,
        Reactor.inletVector, calculate_concentration_length R x y (Or.inr hT), hy,
        min_self]
    · rw [if_neg hlt, if_neg hlt]

unseal Rat.mul Rat.add Rat.sub Rat.inv in
/-- Witness for C4 at the validly constructed Fed-batch reactor
`R2demo` with `x = 3`, `y = [4]` (vessel still filling). -/
theorem c4_witness :
    R2demo.odeRHS 3 [4] = .ok (
      if R2demo.currentVolume 3 < R2demo.volume then
        vadd (vscale (R2demo.currentVolume 3) (R2demo.transformationRatesAt [[-1]] 3 [4]))
          (vscale R2demo.flow_rate R2demo.inletVector)
      else vscale (R2demo.currentVolume 3) (R2demo.transformationRatesAt [[-1]] 3 [4])) :=
  (c4_ode_rhs_fedbatch_cstr R2demo 3 [4] [[-1]] (by decide) (by decide)).1 rfl

/-- C5: for a CSTR, `find_steady_state` ignores `guess`, `threshold`
and `max_iterations`: it reports the coordinate
`3 * (volume / flow_rate)` exactly, with the snapshots taken at the
final sampled point of the `run` over `[0, 3·volume/flow_rate]`, and
performs no threshold check. -/
theorem c5_cstr_steady_state (R : Reactor) (solver : Solver)
    (guess threshold : ℚ) (max_iterations : ℕ) (res : RunResult)
    (c : List (String × Val)) (yv : List (String × ℚ))
    (rr tr : List (String × Val))
    (hT : R.reactor_type = "CSTR")
    (hrun : R.run solver (3 * (R.volume / R.flow_rate)) = .ok res)
    (hc : lastVals res.concentrations_dict = some c)
    (hy : lastRats res.y_dict = some yv)
    (hr : lastVals res.reaction_rates_dict = some rr)
    (htr : lastVals res.transformation_rates_dict = some tr) :
    R.find_steady_state solver guess threshold max_iterations =
      .ok ⟨3 * (R.volume / R.flow_rate), c, yv, rr, tr⟩ := by
  unfold Reactor.find_steady_state
  rw [if_pos hT]
  dsimp only
  simp only [hrun, hc, hy, hr, htr]

unseal Rat.mul Rat.add Rat.sub Rat.inv in
/-- Witness for C5: `demoCSTR` has `3·τ = 15`; with a zero budget
(`max_iterations = 0`) and an absurd threshold, the CSTR branch still
returns the final-sample snapshot at coordinate `15`. -/
theorem c5_witness :
    demoCSTR.find_steady_state s6demo 42 5 0 = .ok demoCSTRSS :=
  c5_cstr_steady_state demoCSTR s6demo 42 5 0
    ⟨[15], [("A", [.fin (1/10)])], [("A", [1])], [("RZ", [.fin 0])], [("A", [.fin 0])]⟩
    [("A", .fin (1/10))] [("A", 1)] [("RZ", .fin 0)] [("A", .fin 0)]
    rfl (by decide) (by decide) (by decide) (by decide) (by decide)

/-- `run` can only fail with the missing-span, unknown-type or
index error. -/
theorem run_error_cases (R : Reactor) (solver : Solver) (x : ℚ) (e : RcError)
    (h : R.run solver x = .error e) :
    e = .missingSpan ∨ e = .unknownReactorType ∨ e = .indexError := by
  unfold Reactor.run at h
  split at h
  · exact Or.inl (Except.error.inj h).symm
  · split at h
    · exact Or.inr (Or.inl (Except.error.inj h).symm)
    · split at h
      · exact Or.inr (Or.inr (Except.error.inj h).symm)
      · exact Except.noConfusion h

/-- C7: `find_conversion` raises the conversion-exceeds-maximum error
iff `conversion_target > (initial − steady_state)/initial`, where
`initial` is the species' entry in the regime's concentration mapping
and `steady_state` the concentration `find_steady_state` (with its
default threshold and budget) reports for it; when it raises, nothing
else is computed or returned. -/
theorem c7_conversion_exceeds_maximum (R : Reactor) (solver : Solver)
    (specie : String) (conversion_target guess : ℚ) (i0 : ℚ) (ss : SSResult)
    (c : ℚ)
    (hi : (if R.bfc then R.initial_bulk_concentrations_dict
      else R.inlet_concentrations_dict).lookup specie = some i0)
    (hi0 : i0 ≠ 0)
    (hss : R.find_steady_state solver guess (1/1000) 10 = .ok ss)
    (hcss : ss.concentrations.lookup specie = some (Val.fin c)) :
    (R.find_conversion solver specie conversion_target guess =
        .error .conversionTooHigh
      ↔ (i0 - c) / i0 < conversion_target) := by
  by_cases hcmp : (i0 - c) / i0 < conversion_target
  · refine iff_of_true ?_ hcmp
    unfold Reactor.find_conversion
    dsimp only
    simp only [hi, hss, hcss]
    have hltb : (((Val.fin i0).sub (Val.fin c)).div (Val.fin i0)).ltb
        (Val.fin conversion_target) = true := by
      simp [Val.sub, Val.div, hi0, Val.ltb, hcmp]
    simp [hltb]
  · refine iff_of_false ?_ hcmp
    intro hcon
    unfold Reactor.find_conversion at hcon
    dsimp only at hcon
    simp only [hi, hss, hcss] at hcon
    have hltb : (((Val.fin i0).sub (Val.fin c)).div (Val.fin i0)).ltb
        (Val.fin conversion_target) = false := by
      simp [Val.sub, Val.div, hi0, Val.ltb, hcmp]
    simp only [hltb, Bool.false_eq_true, if_false] at hcon
    cases hr : R.run solver ss.x with
    | error e =>
      simp only [hr] at hcon
      have he := run_error_cases R solver ss.x e hr
      have : e = .conversionTooHigh := (Except.error.inj hcon)
      rcases he with h | h | h <;> rw [this] at h <;> exact RcError.noConfusion h
    | ok res =>
      simp only [hr] at hcon
      repeat' split at hcon
      all_goals simp at hcon

unseal Rat.mul Rat.add Rat.sub Rat.inv in
/-- Witness for C7: `demoBatch` reaches steady state at concentration 1
for `"A"` (initial 1), so the maximal conversion is 0, and a target of
`1/2` triggers the conversion-exceeds-maximum error. -/
theorem c7_witness :
    demoBatch.find_conversion s6demo "A" (1/2) 1 = .error .conversionTooHigh :=
  (c7_conversion_exceeds_maximum demoBatch s6demo "A" (1/2) 1 1 demoSS 1
    (by decide) (by decide) (by decide) (by decide)).mpr (by norm_num)

/-- The per-reaction rate trajectory of a successful `run` is keyed by
the reaction names, in reaction order. -/
theorem pyDictInsert_keys {α : Type} (acc : List (String × α)) (p : String × α) :
    (pyDictInsert acc p).map Prod.fst =
      if p.1 ∈ acc.map Prod.fst then acc.map Prod.fst
      else acc.map Prod.fst ++ [p.1] := by
  unfold pyDictInsert
  split
  · simp only [List.map_map]
    refine List.map_congr_left ?_
    intro q _
    by_cases hq : q.1 = p.1 <;> simp [hq, Function.comp]
  · simp

theorem pyDict_foldl_keys_mem {α : Type} (l : List (String × α)) :
    ∀ (acc : List (String × α)) (k : String),
      k ∈ ((l.foldl pyDictInsert acc).map Prod.fst) ↔
        k ∈ acc.map Prod.fst ∨ k ∈ l.map Prod.fst := by
  induction l with
  | nil =>
    intro acc k
    simp
  | cons p l ih =>
    intro acc k
    simp only [List.foldl_cons, List.map_cons, List.mem_cons]
    rw [ih, pyDictInsert_keys]
    by_cases hp : p.1 ∈ acc.map Prod.fst
    · rw [if_pos hp]
      constructor
      · tauto
      · rintro (hk | hk | hk)
        · tauto
        · exact Or.inl (hk ▸ hp)
        · tauto
    · rw [if_neg hp]
      simp only [List.mem_append, List.mem_singleton]
      tauto

theorem pyDict_foldl_keys_nodup {α : Type} (l : List (String × α)) :
    ∀ acc : List (String × α), (acc.map Prod.fst).Nodup →
      ((l.foldl pyDictInsert acc).map Prod.fst).Nodup := by
  induction l with
  | nil =>
    intro acc h
    simpa using h
  | cons p l ih =>
    intro acc h
    simp only [List.foldl_cons]
    refine ih _ ?_
    rw [pyDictInsert_keys]
    by_cases hp : p.1 ∈ acc.map Prod.fst
    · rw [if_pos hp]
      exact h
    · rw [if_neg hp]
      refine List.Nodup.append h (List.nodup_singleton _) ?_
      intro a ha hb
      rw [List.mem_singleton] at hb
      exact hp (hb ▸ ha)

/-- The keys of a Python dict comprehension are exactly the keys of the
pair sequence it was built from. -/
theorem pyDict_keys_mem {α : Type} (l : List (String × α)) (k : String) :
    k ∈ (pyDict l).map Prod.fst ↔ k ∈ l.map Prod.fst := by
  unfold pyDict
  rw [pyDict_foldl_keys_mem]
  simp

/-- A Python dict has no duplicate keys. -/
theorem pyDict_keys_nodup {α : Type} (l : List (String × α)) :
    ((pyDict l).map Prod.fst).Nodup :=
  pyDict_foldl_keys_nodup l [] (by simp)

/-- The per-reaction rate trajectory of a successful `run` is a Python
dict keyed by reaction name: its keys are exactly the names occurring
among the reactor's reactions, each once (reactions sharing a name
collapse to one entry). -/
theorem run_reaction_rates_keys (R : Reactor) (solver : Solver) (x : ℚ)
    (res : RunResult) (h : R.run solver x = .ok res) :
    (∀ n, n ∈ res.reaction_rates_dict.map Prod.fst ↔
      n ∈ R.reactions.map Reaction.name) ∧
    (res.reaction_rates_dict.map Prod.fst).Nodup := by
  unfold Reactor.run at h
  split at h
  · exact Except.noConfusion h
  · split at h
    · exact Except.noConfusion h
    · split at h
      · exact Except.noConfusion h
      · cases h
        dsimp only
        constructor
        · intro n
          rw [pyDict_keys_mem]
          simp only [List.map_map]
          show n ∈ R.reactions.enum.map (Reaction.name ∘ Prod.snd) ↔ _
          rw [← List.map_map, List.enum_map_snd]
        · exact pyDict_keys_nodup _

/-- C10 (amended): a successful `find_conversion` returns one-key
mappings `{specie: ...}` for the concentration, state and
transformation-rate snapshots, while the reaction-rate snapshot has
exactly one entry per *distinct* reaction name of the reactor: its keys
are the names occurring among the reactions, without duplicates
(reactions sharing a name collapse into a single dict entry). -/
theorem c10_conversion_snapshot_keys (R : Reactor) (solver : Solver)
    (specie : String) (conversion_target guess : ℚ) (res : SSResult)
    (h : R.find_conversion solver specie conversion_target guess = .ok res) :
    (∃ v, res.concentrations = [(specie, v)]) ∧
    (∃ w, res.y = [(specie, w)]) ∧
    (∃ u, res.transformation_rates = [(specie, u)]) ∧
    ((∀ n, n ∈ res.reaction_rates.map Prod.fst ↔
        n ∈ R.reactions.map Reaction.name) ∧
      (res.reaction_rates.map Prod.fst).Nodup) := by
  unfold Reactor.find_conversion at h
  dsimp only at h
  cases h1 : (if R.bfc then R.initial_bulk_concentrations_dict
      else R.inlet_concentrations_dict).lookup specie with
  | none => simp only [h1] at h; exact Except.noConfusion h
  | some i0 =>
    simp only [h1] at h
    cases h2 : R.find_steady_state solver guess (1/1000) 10 with
    | error e => simp only [h2] at h; exact Except.noConfusion h
    | ok ss =>
      simp only [h2] at h
      cases h3 : ss.concentrations.lookup specie with
      | none => simp only [h3] at h; exact Except.noConfusion h
      | some css =>
        simp only [h3] at h
        cases h4 : (((Val.fin i0).sub css).div (Val.fin i0)).ltb
            (Val.fin conversion_target) with
        | true => simp only [h4, if_true] at h; exact Except.noConfusion h
        | false =>
          simp only [h4, Bool.false_eq_true, if_false] at h
          cases h5 : R.run solver ss.x with
          | error e => simp only [h5] at h; exact Except.noConfusion h
          | ok rr =>
            simp only [h5] at h
            cases h6 : rr.concentrations_dict.lookup specie with
            | none => simp only [h6] at h; exact Except.noConfusion h
            | some concList =>
              simp only [h6] at h
              cases h7 : concList.findIdx?
                  (fun v => v.leb (Val.fin (i0 * (1 - conversion_target)))) with
              | none => simp only [h7] at h; exact Except.noConfusion h
              | some idx =>
                simp only [h7] at h
                cases h8 : rr.y_dict.lookup specie with
                | none => simp only [h8] at h; exact Except.noConfusion h
                | some yList =>
                  simp only [h8] at h
                  cases h9 : rr.transformation_rates_dict.lookup specie with
                  | none => simp only [h9] at h; exact Except.noConfusion h
                  | some trList =>
                    simp only [h9] at h
                    cases h10 : rr.x_array.get? idx with
                    | none => simp only [h10] at h; exact Except.noConfusion h
                    | some xconv =>
                      simp only [h10] at h
                      cases h
                      obtain ⟨hmem, hnodup⟩ :=
                        run_reaction_rates_keys R solver ss.x rr h5
                      refine ⟨⟨_, rfl⟩, ⟨_, rfl⟩, ⟨_, rfl⟩, ?_, ?_⟩
                      · intro n
                        dsimp only
                        simp only [List.map_map]
                        rw [show (Prod.fst ∘ (fun p : String × List Val =>
                          (p.1, (p.2.getD idx Val.nan)))) = Prod.fst from rfl]
                        exact hmem n
                      · dsimp only
                        simp only [List.map_map]
                        rw [show (Prod.fst ∘ (fun p : String × List Val =>
                          (p.1, (p.2.getD idx Val.nan)))) = Prod.fst from rfl]
                        exact hnodup

unseal Rat.mul Rat.add Rat.sub Rat.inv in
/-- C10 counterexample: `dupNameBatch` is a validly constructed Batch
reactor with two reactions (of length-2 reaction list) that share the
name `"RZ"`.  Its successful `find_conversion` returns a reaction-rate
snapshot with a *single* entry, not one per reaction: the dict
comprehension `{reaction.name: ...}` collapses same-named reactions. -/
theorem c10_counterexample :
    Reaction.init "RZ" ["A"] [-1] (.const 0) = .ok demoRZ ∧
    Reaction.init "RZ" ["A"] [1] (.const 0) = .ok demoRZdup ∧
    Reactor.init "Batch" 2 [demoRZ, demoRZdup] [("A", 1)] 0 0 [] =
      .ok dupNameBatch ∧
    dupNameBatch.reactions.length = 2 ∧
    dupNameBatch.find_conversion s6demo "A" 0 1 = .ok dupConvRes ∧
    dupConvRes.reaction_rates = [("RZ", .fin 0)] :=
  ⟨by decide, by decide, by decide, by decide, by decide, by decide⟩

unseal Rat.mul Rat.add Rat.sub Rat.inv in
/-- Witness for C10's amended theorem: a successful conversion search on
`demoBatch`. -/
theorem c10_witness :
    (∃ v, demoConv.concentrations = [("A", v)]) ∧
    (∃ w, demoConv.y = [("A", w)]) ∧
    (∃ u, demoConv.transformation_rates = [("A", u)]) ∧
    ((∀ n, n ∈ demoConv.reaction_rates.map Prod.fst ↔
        n ∈ demoBatch.reactions.map Reaction.name) ∧
      (demoConv.reaction_rates.map Prod.fst).Nodup) :=
  c10_conversion_snapshot_keys demoBatch s6demo "A" 0 1 demoConv (by decide)

/-- Under a recognized non-CSTR regime, a positive span and a buildable
stoichiometry matrix, `run` always succeeds. -/
theorem run_succeeds (R : Reactor) (solver : Solver) (x : ℚ)
    (hT : R.reactor_type = "Batch" ∨ R.reactor_type = "Fed-batch" ∨
      R.reactor_type = "PFR")
    (hx : 0 < x) (hM : R.initialize_coeffs_matrix.isSome) :
    ∃ res, R.run solver x = .ok res := by
  have hinit : R.initialState.isSome := by
    unfold Reactor.initialState
    rcases hT with h | h | h <;> simp [h]
  obtain ⟨y0, hy0⟩ := Option.isSome_iff_exists.mp hinit
  obtain ⟨M, hM'⟩ := Option.isSome_iff_exists.mp hM
  unfold Reactor.run
  rw [if_neg (fun hc => absurd hx (not_lt.2 hc.2))]
  simp only [hy0, hM']
  exact ⟨_, rfl⟩

/-- A steady-state snapshot never reports the exhaustion error. -/
theorem ssSnapshotAt_ne_notReached (res : RunResult) (i : ℕ) :
    ssSnapshotAt res i ≠ .error .steadyStateNotReached := by
  unfold ssSnapshotAt
  split <;> simp

/-- The iterative steady-state loop, characterized: it fails with the
exhaustion error iff no simulation at spans `guess, 10·guess, …` within
the budget contains a qualifying sample, and it returns the snapshot at
the *first* qualifying sample of the *first* simulation that has one. -/
theorem ssLoop_characterization (R : Reactor) (solver : Solver) (threshold : ℚ)
    (hT : R.reactor_type = "Batch" ∨ R.reactor_type = "Fed-batch" ∨
      R.reactor_type = "PFR")
    (hM : R.initialize_coeffs_matrix.isSome) :
    ∀ (fuel : ℕ) (guess : ℚ), 0 < guess →
      ((R.ssLoop solver threshold guess fuel = .error .steadyStateNotReached ↔
        ∀ k < fuel, ∀ res, R.run solver (10 ^ k * guess) = .ok res →
          runQual threshold res = none) ∧
       (∀ k < fuel,
         (∀ j < k, ∀ resj, R.run solver (10 ^ j * guess) = .ok resj →
            runQual threshold resj = none) →
         ∀ res i, R.run solver (10 ^ k * guess) = .ok res →
           runQual threshold res = some i →
           R.ssLoop solver threshold guess fuel = ssSnapshotAt res i)) := by
  intro fuel
  induction fuel with
  | zero =>
    intro guess hg
    constructor
    · constructor
      · intro _ k hk
        exact absurd hk (Nat.not_lt_zero k)
      · intro _
        rfl
    · intro k hk
      exact absurd hk (Nat.not_lt_zero k)
  | succ m ih =>
    intro guess hg
    have hg10 : (0 : ℚ) < 10 * guess := by linarith
    obtain ⟨res0, hres0⟩ := run_succeeds R solver guess hT hg hM
    have hloop : R.ssLoop solver threshold guess (m + 1) =
        (match runQual threshold res0 with
         | some i => ssSnapshotAt res0 i
         | none => R.ssLoop solver threshold (10 * guess) m) := by
      simp only [Reactor.ssLoop, hres0]
    cases hq : runQual threshold res0 with
    | some i0 =>
      simp only [hq] at hloop
      constructor
      · constructor
        · intro hcon
          rw [hloop] at hcon
          exact absurd hcon (ssSnapshotAt_ne_notReached res0 i0)
        · intro hall
          exfalso
          have h0 := hall 0 (Nat.succ_pos m) res0 (by rw [pow_zero, one_mul]; exact hres0)
          rw [h0] at hq
          exact Option.noConfusion hq
      · intro k hk hprev res i hrun hqi
        cases k with
        | zero =>
          rw [pow_zero, one_mul, hres0] at hrun
          obtain rfl := (Except.ok.inj hrun)
          rw [hq] at hqi
          obtain rfl := (Option.some.inj hqi)
          exact hloop
        | succ k' =>
          exfalso
          have h0 := hprev 0 (Nat.succ_pos k') res0 (by rw [pow_zero, one_mul]; exact hres0)
          rw [h0] at hq
          exact Option.noConfusion hq
    | none =>
      simp only [hq] at hloop
      obtain ⟨ih1, ih2⟩ := ih (10 * guess) hg10
      constructor
      · constructor
        · intro herr
          rw [hloop] at herr
          intro k hk res hrun
          cases k with
          | zero =>
            rw [pow_zero, one_mul, hres0] at hrun
            obtain rfl := (Except.ok.inj hrun)
            exact hq
          | succ k' =>
            refine ih1.mp herr k' (by omega) res ?_
            rw [show (10 : ℚ) ^ k' * (10 * guess) = 10 ^ (k' + 1) * guess by ring]
            exact hrun
        · intro hall
          rw [hloop]
          refine ih1.mpr ?_
          intro k hk res hrun
          refine hall (k + 1) (by omega) res ?_
          rw [show (10 : ℚ) ^ (k + 1) * guess = 10 ^ k * (10 * guess) by ring]
          exact hrun
      · intro k hk hprev res i hrun hqi
        cases k with
        | zero =>
          exfalso
          rw [pow_zero, one_mul, hres0] at hrun
          obtain rfl := (Except.ok.inj hrun)
          rw [hq] at hqi
          exact Option.noConfusion hqi
        | succ k' =>
          rw [hloop]
          refine ih2 k' (by omega) ?_ res i ?_ hqi
          · intro j hj resj hrj
            refine hprev (j + 1) (by omega) resj ?_
            rw [show (10 : ℚ) ^ (j + 1) * guess = 10 ^ j * (10 * guess) by ring]
            exact hrj
          · rw [show (10 : ℚ) ^ k' * (10 * guess) = 10 ^ (k' + 1) * guess by ring]
            exact hrun

/-- C6: for Batch/Fed-batch/PFR, `find_steady_state` runs at most
`max_iterations` simulations at spans `guess, 10·guess, 100·guess, …`;
it fails with the steady-state-not-reached error iff no simulation in
the budget has a sample where *every* species' transformation-rate
magnitude is below the threshold (`runQual … = none`), and within the
first simulation that has such a sample it returns the snapshot at the
first such sample index.  (`hne` restricts the statement to reactors
with at least one tracked species, the only reactors on which the
source's `np.all(..., axis=1)` reduction is well-formed.) -/
theorem c6_steady_state_search (R : Reactor) (solver : Solver)
    (guess threshold : ℚ) (max_iterations : ℕ)
    (hT : R.reactor_type = "Batch" ∨ R.reactor_type = "Fed-batch" ∨
      R.reactor_type = "PFR")
    (hg : 0 < guess) (hM : R.initialize_coeffs_matrix.isSome)
    (hne : R.canonicalDict ≠ []) :
    (R.find_steady_state solver guess threshold max_iterations =
        .error .steadyStateNotReached ↔
      ∀ k < max_iterations, ∀ res, R.run solver (10 ^ k * guess) = .ok res →
        runQual threshold res = none) ∧
    (∀ k < max_iterations,
      (∀ j < k, ∀ resj, R.run solver (10 ^ j * guess) = .ok resj →
        runQual threshold resj = none) →
      ∀ res i, R.run solver (10 ^ k * guess) = .ok res →
        runQual threshold res = some i →
        R.find_steady_state solver guess threshold max_iterations =
          ssSnapshotAt res i) := by
  have hcstr : ¬ R.reactor_type = "CSTR" := by
    rcases hT with h | h | h <;> rw [h] <;> decide
  have hfs : R.find_steady_state solver guess threshold max_iterations =
      R.ssLoop solver threshold guess max_iterations := by
    unfold Reactor.find_steady_state
    rw [if_neg hcstr]
  rw [hfs]
  exact ssLoop_characterization R solver threshold hT hM max_iterations guess hg

unseal Rat.mul Rat.add Rat.sub Rat.inv in
/-- Witness for C6: on `demoBatch` the very first simulation (span 1)
already qualifies at its first sample, so `find_steady_state` returns
that snapshot. -/
theorem c6_witness :
    demoBatch.find_steady_state s6demo 1 (1/1000) 10 =
      ssSnapshotAt demoBatchRunRes 0 :=
  (c6_steady_state_search demoBatch s6demo 1 (1/1000) 10
    (Or.inl rfl) (by norm_num) (by decide) (by decide)).2 0 (by omega)
    (fun j hj => absurd hj (Nat.not_lt_zero j)) demoBatchRunRes 0
    (by rw [pow_zero, one_mul]; decide) (by decide)
